import Mathlib

/-!
Verification of the fastify-new interactive CLI (src/cli.ts) against its
natural-language specification.

The embedding models:
  - JS runtime values flowing through the ResolvedOptions map (Value);
  - the JS primitives the CLI relies on: String.prototype.trim, the
    Number() coercion on decimal literals, String() stringification,
    String.prototype.startsWith, array indexing (which yields undefined
    at a fractional index), and object-key semantics (insertion order,
    lookup of a missing key yielding undefined);
  - the option schema (categories), the derived-value resolver
    (applyTrustProxyPrecedence), the option-asking protocol (askOption,
    askChoice, askInput), the setup flow (runSetupFlow), the plugin
    scaffold wizard (runPluginScaffoldWizard), and the manifest builder
    and writer (generateProject, ensureNoDuplicateFilePaths).

Interactive loops are modelled as fuel-indexed functions over a list of
operator input lines; a none result means the program is still awaiting
input (never an abort).  Console output other than warnings and the
events needed by the claims is elided; generated file contents are
elided because every claim about the manifest is content-independent.
-/

namespace FastifyNew

/-- 10 ^ e on naturals, written out so that it reduces in the kernel. -/
def natPow10 : Nat → Nat
  | 0 => 1
  | e + 1 => 10 * natPow10 e

def pow10 (e : Nat) : Int := (natPow10 e : Int)

/-- A JS number as this CLI produces one: an exact decimal
mant / 10 ^ exp.  Every numeric value the CLI manipulates is a finite
decimal (integer option defaults and Number() applied to decimal input
lines), so this representation is exact.  Values are kept canonical
(the mantissa of a non-integer is not divisible by 10), so structural
equality coincides with JS numeric equality on the values that occur. -/
structure JsNum where
  mant : Int
  exp : Nat
deriving DecidableEq, Repr

/-- Canonicalise mant / 10 ^ exp by stripping common factors of 10. -/
def JsNum.canon : Int → Nat → JsNum
  | m, 0 => ⟨m, 0⟩
  | m, e + 1 => if m % 10 = 0 then JsNum.canon (m / 10) e else ⟨m, e + 1⟩

/-- Numeric comparison a ≤ b via cross-multiplication. -/
def JsNum.le (a b : JsNum) : Bool :=
  a.mant * pow10 b.exp ≤ b.mant * pow10 a.exp

/-- a - 1 on JS numbers (the only arithmetic the CLI performs on an
operator-supplied number). -/
def JsNum.subOne (a : JsNum) : JsNum :=
  JsNum.canon (a.mant - pow10 a.exp) a.exp

/-- The denoted rational, relating the representation to the
mathematical value (used in statements only, never computed). -/
def JsNum.toRat (a : JsNum) : ℚ := (a.mant : ℚ) / (10 : ℚ) ^ a.exp

/-- The JS integer n. -/
def jsInt (n : Int) : JsNum := ⟨n, 0⟩

/-- A JS runtime value as stored in the ResolvedOptions map:
string | number | boolean | undefined. -/
inductive Value where
  | undef : Value
  | str (s : String) : Value
  | num (q : JsNum) : Value
  | bool (b : Bool) : Value
deriving DecidableEq, Repr

/-- typeof v checks the boolean tag -/
def isBoolVal : Value → Bool
  | Value.bool _ => true
  | _ => false

/-- typeof v checks the string tag and v.length > 0 -/
def isNonemptyStrVal : Value → Bool
  | Value.str s => s.length > 0
  | _ => false

/-- typeof v checks the number tag -/
def isNumVal : Value → Bool
  | Value.num _ => true
  | _ => false

/-- JS truthiness of a string | undefined value (undefined and the empty
string are falsy). -/
def truthyOpt : Option String → Bool
  | none => false
  | some s => s ≠ ""

/-- Whitespace recognised by String.prototype.trim (the characters that
occur in the input lines of this CLI). -/
def jsWhitespaceChar (c : Char) : Bool :=
  c = ' ' || c = '\t' || c = '\n' || c = '\r'

/-- String.prototype.trim. -/
def jsTrim (s : String) : String :=
  String.mk (((s.data.dropWhile jsWhitespaceChar).reverse.dropWhile jsWhitespaceChar).reverse)

/-- prefixStr is a prefix of the character list. -/
def listPrefix : List Char → List Char → Bool
  | [], _ => true
  | _ :: _, [] => false
  | a :: as, b :: bs => a = b && listPrefix as bs

/-- String.prototype.startsWith. -/
def jsStartsWith (s p : String) : Bool :=
  listPrefix p.data s.data

/-- Numeric value of a list of decimal digits. -/
def digitsValue (cs : List Char) : Nat :=
  cs.foldl (fun a c => a * 10 + (c.toNat - 48)) 0

/-- The Number() coercion on a string, restricted to the decimal literals
this CLI receives: none models NaN.  Whitespace is trimmed, the empty
string coerces to 0, an optional sign is followed by digits with an
optional fractional part ("1.", ".5" and "1.5" are all numbers, "." and
"abc" are NaN). -/
def jsNumber (s : String) : Option JsNum :=
  match (jsTrim s).data with
  | [] => some (jsInt 0)
  | l =>
    let sb : Int × List Char :=
      match l with
      | '+' :: rest => (1, rest)
      | '-' :: rest => (-1, rest)
      | _ => (1, l)
    let ip := sb.2.takeWhile (fun c => c ≠ '.')
    let rest := sb.2.dropWhile (fun c => c ≠ '.')
    match rest with
    | [] =>
      if !ip.isEmpty && ip.all Char.isDigit then some (jsInt (sb.1 * (digitsValue ip : Int)))
      else none
    | _ :: frac =>
      if (!ip.isEmpty || !frac.isEmpty) && ip.all Char.isDigit && frac.all Char.isDigit then
        some (JsNum.canon
          (sb.1 * ((digitsValue ip : Int) * pow10 frac.length + (digitsValue frac : Int)))
          frac.length)
      else none

/-- JS array indexing arr[q] for a (possibly fractional or negative)
canonical numeric index: an element only when q is a natural number in
range, otherwise undefined. -/
def jsArrayGet (l : List String) (q : JsNum) : Option String :=
  if q.exp = 0 && 0 ≤ q.mant then l[q.mant.toNat]? else none

/-- Decimal digits of a natural number. -/
def natToDigits : Nat → Nat → List Char → List Char
  | 0, _, acc => acc
  | fuel + 1, n, acc =>
    if n < 10 then Char.ofNat (48 + n) :: acc
    else natToDigits fuel (n / 10) (Char.ofNat (48 + n % 10) :: acc)

def natToString (n : Nat) : String := String.mk (natToDigits (n + 1) n [])

/-- Decimal digits padded with leading zeros to the given width. -/
def natToStringPad (width n : Nat) : String :=
  let ds := natToDigits (n + 1) n []
  String.mk (List.replicate (width - ds.length) '0' ++ ds)

/-- String() applied to a stored value.  A canonical non-integer prints
as its exact decimal expansion, which for the finite decimals this CLI
produces agrees with the shortest-round-trip form JS prints. -/
def jsValueToString : Value → String
  | Value.undef => "undefined"
  | Value.str s => s
  | Value.bool b => if b then "true" else "false"
  | Value.num q =>
    let sign := if q.mant < 0 then "-" else ""
    if q.exp = 0 then sign ++ natToString q.mant.natAbs
    else
      sign ++ natToString (q.mant.natAbs / natPow10 q.exp) ++ "." ++
        natToStringPad q.exp (q.mant.natAbs % natPow10 q.exp)

/-! ## The option schema (src/cli.ts lines 31-124) -/

inductive OptionType where
  | number | string | boolean | triBoolean | choice
deriving DecidableEq, Repr

structure CategoryOption where
  key : String
  label : String
  type : OptionType
  choices : Option (List String)
  default : Value
deriving DecidableEq, Repr

structure Category where
  key : String
  name : String
  options : List CategoryOption
deriving DecidableEq, Repr

def DEFAULT_IGNORE_WATCH : String :=
  "node_modules build dist .git bower_components logs .swp"

def categories : List Category := [
  ⟨"network", "Network", [
    ⟨"port", "Port", OptionType.number, none, Value.num (jsInt 3000)⟩,
    ⟨"host", "Host", OptionType.string, none, Value.undef⟩,
    ⟨"socket", "Socket", OptionType.string, none, Value.undef⟩,
    ⟨"prefix", "Prefix", OptionType.string, none, Value.undef⟩]⟩,
  ⟨"logging", "Logging", [
    ⟨"logLevel", "Log level", OptionType.choice,
      some ["fatal", "error", "warn", "info", "debug", "trace"], Value.str "fatal"⟩,
    ⟨"prettyLogs", "Pretty logs", OptionType.boolean, none, Value.bool false⟩]⟩,
  ⟨"debug", "Debug", [
    ⟨"debug", "Enable debug inspector", OptionType.boolean, none, Value.bool false⟩,
    ⟨"debugPort", "Debug port", OptionType.number, none, Value.num (jsInt 9320)⟩,
    ⟨"debugHost", "Debug host", OptionType.string, none, Value.undef⟩]⟩,
  ⟨"watch", "Watch Mode", [
    ⟨"watch", "Enable watch mode", OptionType.boolean, none, Value.bool false⟩,
    ⟨"ignoreWatch", "Ignore watch list", OptionType.string, none, Value.str DEFAULT_IGNORE_WATCH⟩,
    ⟨"verboseWatch", "Verbose watch events", OptionType.boolean, none, Value.bool false⟩]⟩,
  ⟨"safety", "Safety and Limits", [
    ⟨"pluginTimeout", "Plugin timeout (ms)", OptionType.number, none, Value.num (jsInt 10000)⟩,
    ⟨"bodyLimit", "Body limit (bytes)", OptionType.number, none, Value.undef⟩,
    ⟨"closeGraceDelay", "Close grace delay (ms)", OptionType.number, none, Value.num (jsInt 500)⟩]⟩,
  ⟨"trustProxy", "Trust Proxy", [
    ⟨"trustProxyEnabled", "Trust proxy enabled", OptionType.triBoolean, none, Value.undef⟩,
    ⟨"trustProxyIps", "Trust proxy IPs/CIDR", OptionType.string, none, Value.undef⟩,
    ⟨"trustProxyHop", "Trust proxy hop", OptionType.number, none, Value.undef⟩]⟩]

/-! ## The ResolvedOptions map

A JS object keyed by option name.  Keys keep insertion order; assigning
an existing key updates it in place; reading an absent key yields
undefined.  -/

def ResolvedOptions : Type := List (String × Value)

instance : DecidableEq ResolvedOptions := by
  unfold ResolvedOptions; infer_instance

/-- resolved[k] (undefined when the key is absent). -/
def getOpt (m : ResolvedOptions) (k : String) : Value :=
  match m.find? (fun e => e.1 = k) with
  | some e => e.2
  | none => Value.undef

/-- resolved[k] = v (updates in place, appends a fresh key). -/
def setOpt (m : ResolvedOptions) (k : String) (v : Value) : ResolvedOptions :=
  match m with
  | [] => [(k, v)]
  | e :: rest => if e.1 = k then (k, v) :: rest else e :: setOpt rest k v

/-- The keys of the map, in insertion order (Object.entries order). -/
def optionKeys (m : ResolvedOptions) : List String :=
  m.map Prod.fst

/-! ## Derived-value resolver (src/cli.ts lines 242-259) -/

/-- applyTrustProxyPrecedence: first-match precedence over the raw
trust-proxy options, written exactly as the typeof checks of the source and
early returns. -/
def applyTrustProxyPrecedence (resolved : ResolvedOptions) : ResolvedOptions :=
  if isBoolVal (getOpt resolved "trustProxyEnabled") then
    setOpt resolved "trustProxyEffective" (getOpt resolved "trustProxyEnabled")
  else if isNonemptyStrVal (getOpt resolved "trustProxyIps") then
    setOpt resolved "trustProxyEffective" (getOpt resolved "trustProxyIps")
  else if isNumVal (getOpt resolved "trustProxyHop") then
    setOpt resolved "trustProxyEffective" (getOpt resolved "trustProxyHop")
  else
    setOpt resolved "trustProxyEffective" Value.undef

/-- Spec 4.3, stated independently of the control flow of the source: the
effective value the precedence rule of the specification prescribes, by case
analysis on the constructors of the three raw values. -/
def specHopFallback (m : ResolvedOptions) : Value :=
  match getOpt m "trustProxyHop" with
  | Value.num n => Value.num n
  | _ => Value.undef

def specTrustProxyEffective (m : ResolvedOptions) : Value :=
  match getOpt m "trustProxyEnabled" with
  | Value.bool b => Value.bool b
  | _ =>
    match getOpt m "trustProxyIps" with
    | Value.str s => if s = "" then specHopFallback m else Value.str s
    | _ => specHopFallback m

theorem getOpt_setOpt_self (m : ResolvedOptions) (k : String) (v : Value) :
    getOpt (setOpt m k v) k = v := by
  induction m with
  | nil => simp [setOpt, getOpt, List.find?]
  | cons e rest ih =>
    by_cases h : e.1 = k
    · simp [setOpt, h, getOpt, List.find?]
    · simp [setOpt, h, getOpt, List.find?]
      simpa [getOpt] using ih

theorem isNonemptyStrVal_of_ne {s : String} (h : s ≠ "") :
    isNonemptyStrVal (Value.str s) = true := by
  cases s with
  | mk data =>
    cases data with
    | nil => exact absurd rfl h
    | cons c cs => simp [isNonemptyStrVal, String.length]

theorem isNonemptyStrVal_empty : isNonemptyStrVal (Value.str "") = false := by
  decide

/-- Claim C1: applyTrustProxyPrecedence sets trustProxyEffective by the
strict first-match precedence: a boolean trustProxyEnabled (including
false) wins; otherwise a non-empty string trustProxyIps (an empty string
never matches); otherwise a numeric trustProxyHop; otherwise undefined —
for every ResolvedOptions map. -/
theorem trustProxyPrecedence_correct (m : ResolvedOptions) :
    getOpt (applyTrustProxyPrecedence m) "trustProxyEffective" =
      specTrustProxyEffective m := by
  unfold applyTrustProxyPrecedence specTrustProxyEffective specHopFallback
  rcases he : getOpt m "trustProxyEnabled" with _ | s | q | b <;>
    rcases hi : getOpt m "trustProxyIps" with _ | s' | q' | b' <;>
      rcases hh : getOpt m "trustProxyHop" with _ | s'' | q'' | b'' <;>
        first
        | (by_cases hs : s' = "" <;>
            simp [isBoolVal, isNumVal, he, hi, hh, hs,
              isNonemptyStrVal_empty, isNonemptyStrVal_of_ne,
              getOpt_setOpt_self])
        | simp [isBoolVal, isNonemptyStrVal, isNumVal, he, hi, hh,
            getOpt_setOpt_self]

/-! ## The option-asking protocol (src/cli.ts lines 425-490)

Interaction is modelled over a list of operator input lines.  Each
rl.question consumes one line; a retry loop is indexed by fuel.  A
result of none means the program is still awaiting input (out of
modelled lines or fuel) — never an abort.  Observable console effects
relevant to the claims are returned as events. -/

inductive Event where
  | choiceMade (message : String) (answer : Option String) : Event
  | warn (message : String) : Event
  | setOpt (key : String) (value : Value) : Event
  | resolverRun : Event
  | summaryPrinted : Event
deriving DecidableEq, Repr

/-- The acceptance test of the source: !Number.isNaN(index) (the match on
some) and index >= 1 and index <= options.length. -/
def choiceInRange (index : JsNum) (count : Nat) : Bool :=
  JsNum.le (jsInt 1) index && JsNum.le index (jsInt count)

/-- askChoice: present the options, then repeatedly read a line; the
line is coerced with Number() and accepted when it is not NaN and lies
in [1, options.length].  The source indexes options[index - 1] without
an integrality check, so a fractional in-range index yields the JS
value undefined (modelled as none in the answer position). -/
def askChoiceFn : Nat → String → List String → List String →
    Option (Option String × List String × List Event)
  | 0, _, _, _ => none
  | _ + 1, _, _, [] => none
  | fuel + 1, message, options, answer :: rest =>
    match jsNumber answer with
    | some index =>
      if choiceInRange index options.length then
        some (jsArrayGet options (JsNum.subOne index), rest,
          [Event.choiceMade message (jsArrayGet options (JsNum.subOne index))])
      else
        (askChoiceFn fuel message options rest).map
          (fun r => (r.1, r.2.1, Event.warn "Please enter a valid option number." :: r.2.2))
    | none =>
      (askChoiceFn fuel message options rest).map
        (fun r => (r.1, r.2.1, Event.warn "Please enter a valid option number." :: r.2.2))

/-- askInput: read one line; an empty trimmed line yields the string
form of the default when one exists (else the empty string); otherwise
the trimmed line. -/
def askInputFn (defaultValue : Value) (inputs : List String) :
    Option (String × List String) :=
  match inputs with
  | [] => none
  | raw :: rest =>
    if jsTrim raw = "" then
      match defaultValue with
      | Value.undef => some ("", rest)
      | v => some (jsValueToString v, rest)
    else some (jsTrim raw, rest)

/-- askOption: dispatch on the type tag of the option (src/cli.ts 425-462). -/
def askOptionFn (fuel : Nat) (option : CategoryOption) (inputs : List String) :
    Option (Value × List String × List Event) :=
  match option.type with
  | OptionType.boolean =>
    (askChoiceFn fuel (option.label ++ "?") ["No", "Yes"] inputs).map
      (fun r => (Value.bool (r.1 = some "Yes"), r.2.1, r.2.2))
  | OptionType.triBoolean =>
    (askChoiceFn fuel (option.label ++ ":") ["Unset (default)", "False", "True"] inputs).map
      (fun r =>
        (if r.1 = some "True" then Value.bool true
         else if r.1 = some "False" then Value.bool false
         else Value.undef, r.2.1, r.2.2))
  | OptionType.choice =>
    (askChoiceFn fuel (option.label ++ ":") (option.choices.getD []) inputs).map
      (fun r =>
        (match r.1 with
         | some s => Value.str s
         | none => Value.undef, r.2.1, r.2.2))
  | OptionType.number =>
    match askInputFn option.default inputs with
    | none => none
    | some (response, rest) =>
      if response = "" then some (Value.undef, rest, [])
      else
        match jsNumber response with
        | none => some (option.default, rest,
            [Event.warn "Invalid number, using default/unset."])
        | some parsed => some (Value.num parsed, rest, [])
  | OptionType.string =>
    match askInputFn option.default inputs with
    | none => none
    | some (response, rest) =>
      if response = "" then some (Value.undef, rest, [])
      else some (Value.str response, rest, [])

/-- Claim C3: for a number-typed option, askOption follows the stated
protocol on the response produced by the free-text contract — an empty
response yields undefined, a non-numeric response yields the declared
default after one warning, and any other response yields the parsed
number; and the response itself is the trimmed raw line, with an empty
trimmed line first replaced by the string form of the default when one
exists. -/
theorem askOption_number_protocol (fuel : Nat) (o : CategoryOption)
    (ho : o.type = OptionType.number) (raw : String) (rest : List String) :
    (let response :=
      if jsTrim raw = "" then
        (match o.default with
         | Value.undef => ""
         | v => jsValueToString v)
      else jsTrim raw
     (response = "" → askOptionFn fuel o (raw :: rest) = some (Value.undef, rest, [])) ∧
     (response ≠ "" → jsNumber response = none →
        askOptionFn fuel o (raw :: rest) =
          some (o.default, rest, [Event.warn "Invalid number, using default/unset."])) ∧
     (∀ parsed : JsNum, response ≠ "" → jsNumber response = some parsed →
        askOptionFn fuel o (raw :: rest) = some (Value.num parsed, rest, []))) := by
  simp only [askOptionFn, ho, askInputFn]
  by_cases hr : jsTrim raw = ""
  · rcases hd : o.default with _ | s | q | b <;>
      simp only [hr, hd, if_pos, if_true] <;>
      refine ⟨fun h1 => ?_, fun h1 h2 => ?_, fun parsed h1 h2 => ?_⟩ <;>
        simp_all
  · simp only [hr, if_neg, if_false]
    refine ⟨fun h1 => ?_, fun h1 h2 => ?_, fun parsed h1 h2 => ?_⟩ <;> simp_all

/-- Claim C4 (code bug witness): askChoice with the two-element list
from the final confirmation prompt of the source, fed the line "1.5":
Number("1.5") is 1.5, which passes the NaN and range checks (there is
no integrality check), so the source returns options[0.5], which in JS
is undefined — not an element of the supplied list, contradicting both
the specification (an integer in [1, count]) and the declared
Promise-of-string return type. -/
theorem askChoice_fractional_input_returns_undefined :
    askChoiceFn 1 "Setup complete. Continue?" ["Generate", "Cancel"] ["1.5"] =
      some (none, [], [Event.choiceMade "Setup complete. Continue?" none]) ∧
    (none : Option String) ∉ ["Generate", "Cancel"].map some := by
  exact ⟨by decide, by decide⟩

/-! ## Setup flow controller (src/cli.ts lines 186-240) -/

/-- applyCategoryDefaults: copy the default of every option into the map. -/
def applyCategoryDefaults (category : Category) (resolved : ResolvedOptions) :
    ResolvedOptions :=
  category.options.foldl (fun r o => setOpt r o.key o.default) resolved

/-- The raw-assignment events applyCategoryDefaults performs. -/
def categoryDefaultEvents (category : Category) : List Event :=
  category.options.map (fun o => Event.setOpt o.key o.default)

/-- buildAllDefaults: defaults of every category, then the resolver. -/
def buildAllDefaults : ResolvedOptions :=
  applyTrustProxyPrecedence (categories.foldl (fun r c => applyCategoryDefaults c r) [])

/-- promptCategoryOptions: ask every option of the category in order,
storing each answer under its key; after the trustProxy category
specifically, re-run the derived-value resolver. -/
def promptOptionsLoop (fuel : Nat) : List CategoryOption → ResolvedOptions → List String →
    Option (ResolvedOptions × List String × List Event)
  | [], resolved, inputs => some (resolved, inputs, [])
  | o :: os, resolved, inputs =>
    match askOptionFn fuel o inputs with
    | none => none
    | some (v, rest, evs) =>
      (promptOptionsLoop fuel os (setOpt resolved o.key v) rest).map
        (fun r => (r.1, r.2.1, evs ++ [Event.setOpt o.key v] ++ r.2.2))

def promptCategoryOptionsFn (fuel : Nat) (category : Category)
    (resolved : ResolvedOptions) (inputs : List String) :
    Option (ResolvedOptions × List String × List Event) :=
  match promptOptionsLoop fuel category.options resolved inputs with
  | none => none
  | some (r, rest, evs) =>
    if category.key = "trustProxy" then
      some (applyTrustProxyPrecedence r, rest, evs ++ [Event.resolverRun])
    else some (r, rest, evs)

/-- Outcome of a flow fragment: done, still awaiting input, or an
uncaught JS TypeError (calling .startsWith on an undefined choice
result), which the catch handler of main turns into a fatal exit. -/
inductive Step (α : Type) where
  | done (a : α) : Step α
  | pending : Step α
  | crashed (message : String) : Step α
deriving DecidableEq, Repr

def skipChoiceText : String := "Skip this category (use defaults)"
def configureChoiceText : String := "Configure this category (prompt me)"
def modeMessage : String := "How do you want to set this up?"
def defaultModeText : String := "Default setup (quick start)"
def guidedModeText : String := "Guided setup (choose by category)"

def categoryMessage (c : Category) : String := c.name ++ ": choose how to continue"

/-- The per-category loop of the guided flow: for each category in
order, ask skip-or-configure, then either copy the category defaults or
prompt its options. -/
def categoryLoopFn (fuel : Nat) : List Category → ResolvedOptions → List String →
    Step (ResolvedOptions × List String × List Event)
  | [], resolved, inputs => Step.done (resolved, inputs, [])
  | c :: cs, resolved, inputs =>
    match askChoiceFn fuel (categoryMessage c) [skipChoiceText, configureChoiceText] inputs with
    | none => Step.pending
    | some (action, rest, evs) =>
      match action with
      | none => Step.crashed "TypeError: Cannot read properties of undefined"
      | some a =>
        if jsStartsWith a "Skip" then
          match categoryLoopFn fuel cs (applyCategoryDefaults c resolved) rest with
          | Step.done (r, rest2, evs2) =>
            Step.done (r, rest2, evs ++ categoryDefaultEvents c ++ evs2)
          | s => s
        else
          match promptCategoryOptionsFn fuel c resolved rest with
          | none => Step.pending
          | some (r, rest2, evs2) =>
            match categoryLoopFn fuel cs r rest2 with
            | Step.done (r2, rest3, evs3) => Step.done (r2, rest3, evs ++ evs2 ++ evs3)
            | s => s

/-- runSetupFlow: one binary mode choice, then either all defaults at
once or the guided per-category loop; in both modes the resolver runs
before the summary is printed and the map returned. -/
def runSetupFlowFn (fuel : Nat) (inputs : List String) :
    Step (ResolvedOptions × List String × List Event) :=
  match askChoiceFn fuel modeMessage [defaultModeText, guidedModeText] inputs with
  | none => Step.pending
  | some (mode, rest, evs) =>
    match mode with
    | none => Step.crashed "TypeError: Cannot read properties of undefined"
    | some m =>
      if jsStartsWith m "Default setup" then
        Step.done (buildAllDefaults, rest,
          evs ++ [Event.resolverRun, Event.summaryPrinted])
      else
        match categoryLoopFn fuel categories [] rest with
        | Step.done (r, rest2, evs2) =>
          Step.done (applyTrustProxyPrecedence r, rest2,
            evs ++ evs2 ++ [Event.resolverRun, Event.summaryPrinted])
        | s => s

/-! ## Claims C2 and C9: the guided flow -/

/-- The event e is compatible with the operator having answered "skip"
to the skip-or-configure question of category c: any event other than that
category choice event, or that choice answered with the skip option. -/
def answersSkip (c : Category) (e : Event) : Bool :=
  match e with
  | Event.choiceMade m a =>
    if m = categoryMessage c then a = some skipChoiceText else true
  | _ => true

theorem answersSkip_choice {c : Category} {ans : Option String}
    (h : answersSkip c (Event.choiceMade (categoryMessage c) ans) = true) :
    ans = some skipChoiceText := by
  simpa [answersSkip] using h

/-- A successful askChoice records its choice event in its trace. -/
theorem askChoiceFn_event (msg : String) (opts : List String) :
    ∀ (fuel : Nat) (inputs : List String) (ans : Option String)
      (rest : List String) (evs : List Event),
      askChoiceFn fuel msg opts inputs = some (ans, rest, evs) →
      Event.choiceMade msg ans ∈ evs := by
  intro fuel
  induction fuel with
  | zero => intro inputs ans rest evs h; simp [askChoiceFn] at h
  | succ n ih =>
    intro inputs ans rest evs h
    cases inputs with
    | nil => simp [askChoiceFn] at h
    | cons a as =>
      rw [askChoiceFn] at h
      split at h
      · split at h
        · obtain ⟨h1, h2, h3⟩ := Option.some.injEq .. ▸ h
          cases h
          simp
        · simp only [Option.map_eq_some'] at h
          obtain ⟨⟨ans', rest', evs'⟩, hrec, heq⟩ := h
          cases heq
          exact List.mem_cons_of_mem _ (ih as ans' rest' evs' hrec)
      · simp only [Option.map_eq_some'] at h
        obtain ⟨⟨ans', rest', evs'⟩, hrec, heq⟩ := h
        cases heq
        exact List.mem_cons_of_mem _ (ih as ans' rest' evs' hrec)

/-- When every category-choice event in the trace answers skip, the
category loop computes exactly the categories' defaults folded over the
starting map. -/
theorem categoryLoopFn_skip (fuel : Nat) :
    ∀ (cats : List Category) (resolved : ResolvedOptions) (inputs : List String)
      (out : ResolvedOptions) (rest : List String) (evs : List Event),
      categoryLoopFn fuel cats resolved inputs = Step.done (out, rest, evs) →
      (∀ c ∈ cats, ∀ e ∈ evs, answersSkip c e = true) →
      out = cats.foldl (fun r c => applyCategoryDefaults c r) resolved := by
  intro cats
  induction cats with
  | nil =>
    intro resolved inputs out rest evs h _
    simp only [categoryLoopFn, Step.done.injEq, Prod.mk.injEq] at h
    simp [← h.1]
  | cons c cs ih =>
    intro resolved inputs out rest evs h hskip
    rw [categoryLoopFn] at h
    rcases hask : askChoiceFn fuel (categoryMessage c) [skipChoiceText, configureChoiceText]
        inputs with _ | ⟨action, rest1, evs1⟩
    · rw [hask] at h; exact absurd h (by simp)
    · rw [hask] at h
      dsimp only at h
      rcases action with _ | a
      · exact absurd h (by simp)
      · dsimp only at h
        have hev := askChoiceFn_event (categoryMessage c)
          [skipChoiceText, configureChoiceText] fuel inputs (some a) rest1 evs1 hask
        cases hsw : jsStartsWith a "Skip" with
        | true =>
          simp only [hsw, if_true] at h
          rcases hrec : categoryLoopFn fuel cs (applyCategoryDefaults c resolved) rest1 with
            ⟨r2, rest2, evs2⟩ | _ | m
          · rw [hrec] at h
            dsimp only at h
            simp only [Step.done.injEq, Prod.mk.injEq] at h
            obtain ⟨hout, _, hevs⟩ := h
            subst hout
            have := ih (applyCategoryDefaults c resolved) rest1 r2 rest2 evs2 hrec
              (fun c' hc' e he => hskip c' (List.mem_cons_of_mem _ hc') e
                (by subst hevs; simp [he]))
            simpa [List.foldl_cons] using this
          · rw [hrec] at h; exact absurd h (by simp)
          · rw [hrec] at h; exact absurd h (by simp)
        | false =>
          simp only [hsw, Bool.false_eq_true, if_false] at h
          rcases hprompt : promptCategoryOptionsFn fuel c resolved rest1 with _ | ⟨r1, rest2, evs2⟩
          · rw [hprompt] at h; exact absurd h (by simp)
          · rw [hprompt] at h
            dsimp only at h
            rcases hrec : categoryLoopFn fuel cs r1 rest2 with ⟨r2, rest3, evs3⟩ | _ | m
            · rw [hrec] at h
              dsimp only at h
              simp only [Step.done.injEq, Prod.mk.injEq] at h
              obtain ⟨_, _, hevs⟩ := h
              have ha : a = skipChoiceText := by
                have := hskip c (List.mem_cons_self c cs)
                  (Event.choiceMade (categoryMessage c) (some a))
                  (by subst hevs; simp [hev])
                have := answersSkip_choice this
                simpa using this
              subst ha
              exact absurd hsw (by decide)
            · rw [hrec] at h; exact absurd h (by simp)
            · rw [hrec] at h; exact absurd h (by simp)

/-- Claim C2: a guided run in which the operator answers "skip" for
every category returns the same ResolvedOptions map as the default
setup path: every option resolves to its declared default, the map
holds exactly the 18 declared keys plus trustProxyEffective in schema
order, and the derived value is computed (resolver run) strictly after
all raw values are set, before the summary is printed. -/
theorem guidedAllSkip_eq_defaults (fuel : Nat) (inputs : List String)
    (r : ResolvedOptions) (rest : List String) (evs : List Event)
    (hrun : runSetupFlowFn fuel inputs = Step.done (r, rest, evs))
    (hmode : Event.choiceMade modeMessage (some guidedModeText) ∈ evs)
    (hskip : ∀ c ∈ categories, ∀ e ∈ evs, answersSkip c e = true) :
    r = buildAllDefaults ∧
    (∀ c ∈ categories, ∀ o ∈ c.options, getOpt r o.key = o.default) ∧
    optionKeys r =
      categories.flatMap (fun c => c.options.map (fun o => o.key)) ++
        ["trustProxyEffective"] ∧
    ∃ pre, evs = pre ++ [Event.resolverRun, Event.summaryPrinted] := by
  rw [runSetupFlowFn] at hrun
  rcases hask : askChoiceFn fuel modeMessage [defaultModeText, guidedModeText] inputs with
    _ | ⟨mode, rest1, evs1⟩
  · rw [hask] at hrun; exact absurd hrun (by simp)
  · rw [hask] at hrun
    dsimp only at hrun
    rcases mode with _ | m
    · exact absurd hrun (by simp)
    · dsimp only at hrun
      cases hsw : jsStartsWith m "Default setup" with
      | true =>
        simp only [hsw, if_true] at hrun
        simp only [Step.done.injEq, Prod.mk.injEq] at hrun
        obtain ⟨hr, _, hevs⟩ := hrun
        subst hr
        exact ⟨rfl, by decide, by decide, ⟨evs1, by simp [← hevs]⟩⟩
      | false =>
        simp only [hsw, Bool.false_eq_true, if_false] at hrun
        rcases hloop : categoryLoopFn fuel categories [] rest1 with ⟨r2, rest2, evs2⟩ | _ | m2
        · rw [hloop] at hrun
          dsimp only at hrun
          simp only [Step.done.injEq, Prod.mk.injEq] at hrun
          obtain ⟨hr, _, hevs⟩ := hrun
          have hfold := categoryLoopFn_skip fuel categories [] rest1 r2 rest2 evs2 hloop
            (fun c hc e he => hskip c hc e (by subst hevs; simp [he]))
          have hrb : r = buildAllDefaults := by
            rw [← hr, hfold, buildAllDefaults]
          refine ⟨hrb, ?_, ?_, ⟨evs1 ++ evs2, by simp [← hevs]⟩⟩
          · rw [hrb]; decide
          · rw [hrb]; decide
        · rw [hloop] at hrun; exact absurd hrun (by simp)
        · rw [hloop] at hrun; exact absurd hrun (by simp)

/-- Number of resolver runs recorded in a trace. -/
def resolverCount (evs : List Event) : Nat :=
  evs.countP (fun e => e == Event.resolverRun)

def flowDoneOf (res : Step (ResolvedOptions × List String × List Event)) :
    ResolvedOptions × List String × List Event :=
  match res with
  | Step.done x => x
  | _ => ([], [], [])

/-- The guided run that skips every category: guided mode, then skip
for each of the six categories. -/
def skipRunInputs : List String := ["2", "1", "1", "1", "1", "1", "1"]

def skipRunResolved : ResolvedOptions := (flowDoneOf (runSetupFlowFn 8 skipRunInputs)).1

def skipRunTrace : List Event := (flowDoneOf (runSetupFlowFn 8 skipRunInputs)).2.2

/-- Claim C9 as stated: in every completed guided run the resolver is
re-run immediately after the trust-proxy category completes — whether
skipped or configured — and again after the loop, hence at least two
resolver runs occur. -/
def claimC9Statement : Prop :=
  ∀ (fuel : Nat) (inputs : List String) (r : ResolvedOptions) (rest : List String)
    (evs : List Event),
    runSetupFlowFn fuel inputs = Step.done (r, rest, evs) →
    Event.choiceMade modeMessage (some guidedModeText) ∈ evs →
    2 ≤ resolverCount evs

/-- Claim C9 is false on the code: in the guided all-skip run the
resolver runs exactly once (after the loop); the skip branch of the
category loop never invokes it, so no second run follows the skipped
trust-proxy category. -/
theorem resolver_rerun_counterexample : ¬ claimC9Statement := by
  intro h
  have h2 := h 8 skipRunInputs skipRunResolved [] skipRunTrace (by decide) (by decide)
  exact absurd h2 (by decide)

def promptDoneOf (res : Option (ResolvedOptions × List String × List Event)) :
    ResolvedOptions × List String × List Event :=
  res.getD ([], [], [])

def trustProxyCategory : Category := (categories.drop 5).headD ⟨"", "", []⟩

/-- Configuring the trust-proxy category with Unset / empty / empty. -/
def tpConfigInputs : List String := ["1", "", ""]

def tpConfigResolved : ResolvedOptions :=
  (promptDoneOf (promptCategoryOptionsFn 4 trustProxyCategory [] tpConfigInputs)).1

def tpConfigRest : List String :=
  (promptDoneOf (promptCategoryOptionsFn 4 trustProxyCategory [] tpConfigInputs)).2.1

def tpConfigTrace : List Event :=
  (promptDoneOf (promptCategoryOptionsFn 4 trustProxyCategory [] tpConfigInputs)).2.2

/-- Claim C9 (amended): in the guided flow the resolver is re-run after
the trust-proxy category only when that category is configured
(promptCategoryOptions ends with a resolver run exactly for the
trustProxy key), and it is always run once more after the full category
loop, immediately before the summary is printed — so trustProxyEffective
reflects the latest raw values before the map is read or printed. -/
theorem resolver_rerun_amended :
    (∀ (fuel : Nat) (inputs : List String) (r : ResolvedOptions) (rest : List String)
      (evs : List Event),
      runSetupFlowFn fuel inputs = Step.done (r, rest, evs) →
      ∃ pre, evs = pre ++ [Event.resolverRun, Event.summaryPrinted]) ∧
    (∀ (fuel : Nat) (c : Category) (resolved : ResolvedOptions) (inputs : List String)
      (r : ResolvedOptions) (rest : List String) (evs : List Event),
      c.key = "trustProxy" →
      promptCategoryOptionsFn fuel c resolved inputs = some (r, rest, evs) →
      ∃ pre r0, evs = pre ++ [Event.resolverRun] ∧ r = applyTrustProxyPrecedence r0) := by
  constructor
  · intro fuel inputs r rest evs hrun
    rw [runSetupFlowFn] at hrun
    rcases hask : askChoiceFn fuel modeMessage [defaultModeText, guidedModeText] inputs with
      _ | ⟨mode, rest1, evs1⟩
    · rw [hask] at hrun; exact absurd hrun (by simp)
    · rw [hask] at hrun
      dsimp only at hrun
      rcases mode with _ | m
      · exact absurd hrun (by simp)
      · dsimp only at hrun
        cases hsw : jsStartsWith m "Default setup" with
        | true =>
          simp only [hsw, if_true] at hrun
          simp only [Step.done.injEq, Prod.mk.injEq] at hrun
          exact ⟨evs1, by simp [← hrun.2.2]⟩
        | false =>
          simp only [hsw, Bool.false_eq_true, if_false] at hrun
          rcases hloop : categoryLoopFn fuel categories [] rest1 with ⟨r2, rest2, evs2⟩ | _ | m2
          · rw [hloop] at hrun
            dsimp only at hrun
            simp only [Step.done.injEq, Prod.mk.injEq] at hrun
            exact ⟨evs1 ++ evs2, by simp [← hrun.2.2]⟩
          · rw [hloop] at hrun; exact absurd hrun (by simp)
          · rw [hloop] at hrun; exact absurd hrun (by simp)
  · intro fuel c resolved inputs r rest evs hkey hrun
    rw [promptCategoryOptionsFn] at hrun
    rcases hloop : promptOptionsLoop fuel c.options resolved inputs with _ | ⟨r0, rest0, evs0⟩
    · rw [hloop] at hrun; exact absurd hrun (by simp)
    · rw [hloop] at hrun
      dsimp only at hrun
      rw [hkey] at hrun
      simp only [if_true, Option.some.injEq, Prod.mk.injEq] at hrun
      exact ⟨evs0, r0, by simp [← hrun.2.2], hrun.1.symm⟩

/-- Witness for the amended C9 theorem: the all-skip guided run ends
with a resolver run then the summary, and the configured trust-proxy
category trace ends with a resolver run. -/
theorem resolver_rerun_amended_witness :
    (∃ pre, skipRunTrace = pre ++ [Event.resolverRun, Event.summaryPrinted]) ∧
    (∃ pre r0, tpConfigTrace = pre ++ [Event.resolverRun] ∧
      tpConfigResolved = applyTrustProxyPrecedence r0) := by
  constructor
  · exact resolver_rerun_amended.1 8 skipRunInputs skipRunResolved [] skipRunTrace (by decide)
  · exact resolver_rerun_amended.2 4 trustProxyCategory [] tpConfigInputs
      tpConfigResolved tpConfigRest tpConfigTrace (by decide) (by decide)

/-- Witness for C2: the concrete all-skip guided run completes with the
default map. -/
theorem guidedAllSkip_eq_defaults_witness :
    runSetupFlowFn 8 skipRunInputs = Step.done (skipRunResolved, [], skipRunTrace) ∧
    Event.choiceMade modeMessage (some guidedModeText) ∈ skipRunTrace ∧
    skipRunResolved = buildAllDefaults := by
  refine ⟨by decide, by decide, ?_⟩
  exact (guidedAllSkip_eq_defaults 8 skipRunInputs skipRunResolved [] skipRunTrace
    (by decide) (by decide) (by decide)).1

/-- The first schema option (Port), used as a concrete witness input. -/
def portOption : CategoryOption :=
  ((categories.headD ⟨"", "", []⟩).options).headD
    ⟨"", "", OptionType.number, none, Value.undef⟩

/-- Witness for C3: the port option with non-numeric input "abc" falls
back to the declared default after a warning. -/
theorem askOption_number_protocol_witness :
    portOption.type = OptionType.number ∧
    askOptionFn 1 portOption ["abc"] =
      some (portOption.default, [], [Event.warn "Invalid number, using default/unset."]) := by
  refine ⟨by decide, ?_⟩
  exact (askOption_number_protocol 1 portOption (by decide) "abc" []).2.1
    (by decide) (by decide)

/-! ## Claim C10: number options with a declared default -/

def allOptions : List CategoryOption := categories.flatMap (fun c => c.options)

/-- For a number option whose default is the number d, with the string
form non-empty and parsing back to d, askOption never returns
undefined, and empty input resolves to the default itself. -/
theorem askOption_number_default_helper (o : CategoryOption) (d : JsNum)
    (ht : o.type = OptionType.number) (hd : o.default = Value.num d)
    (hne : jsValueToString (Value.num d) ≠ "")
    (hp : jsNumber (jsValueToString (Value.num d)) = some d)
    (fuel : Nat) (raw : String) (rest : List String) :
    (jsTrim raw = "" → askOptionFn fuel o (raw :: rest) = some (o.default, rest, [])) ∧
    (∀ v rest2 evs, askOptionFn fuel o (raw :: rest) = some (v, rest2, evs) →
      v ≠ Value.undef) := by
  simp only [askOptionFn, ht, askInputFn]
  by_cases hr : jsTrim raw = ""
  · simp only [hr, if_true, hd]
    constructor
    · intro _
      simp only [if_neg hne, hp]
    · intro v rest2 evs h
      rw [if_neg hne, hp] at h
      obtain ⟨hv, _, _⟩ := Option.some.injEq .. ▸ h
      cases h
      simp
  · simp only [hr, if_false]
    refine ⟨fun h => h.elim, ?_⟩
    intro v rest2 evs h
    rcases hj : jsNumber (jsTrim raw) with _ | q
    · rw [hj] at h
      cases h
      simp [hd]
    · rw [hj] at h
      cases h
      simp

/-- Claim C10: for every number-typed schema option whose declared
default is defined (port, debugPort, pluginTimeout, closeGraceDelay),
askOption never returns undefined: an empty operator line is replaced
by the string form of the default inside askInput before the askOption
empty-response check runs, so it resolves to the default; non-numeric
input resolves to the default; anything else to the parsed number
(hence never undefined). -/
theorem askOption_numberDefault_never_undefined (o : CategoryOption)
    (hmem : o ∈ allOptions) (ht : o.type = OptionType.number)
    (hd : o.default ≠ Value.undef) (fuel : Nat) (raw : String) (rest : List String) :
    (jsTrim raw = "" → askOptionFn fuel o (raw :: rest) = some (o.default, rest, [])) ∧
    (∀ v rest2 evs, askOptionFn fuel o (raw :: rest) = some (v, rest2, evs) →
      v ≠ Value.undef) := by
  fin_cases hmem <;>
    first
    | exact absurd ht (by decide)
    | exact absurd rfl hd
    | exact askOption_number_default_helper _ (jsInt 3000) rfl rfl (by decide) (by decide)
        fuel raw rest
    | exact askOption_number_default_helper _ (jsInt 9320) rfl rfl (by decide) (by decide)
        fuel raw rest
    | exact askOption_number_default_helper _ (jsInt 10000) rfl rfl (by decide) (by decide)
        fuel raw rest
    | exact askOption_number_default_helper _ (jsInt 500) rfl rfl (by decide) (by decide)
        fuel raw rest

/-- Witness for C10: the port option with an empty line resolves to the
default 3000, not undefined. -/
theorem askOption_numberDefault_witness :
    portOption ∈ allOptions ∧
    askOptionFn 1 portOption [""] = some (portOption.default, [], []) := by
  refine ⟨by decide, ?_⟩
  exact (askOption_numberDefault_never_undefined portOption (by decide) (by decide)
    (by decide) 1 "" []).1 (by decide)

/-! ## Plugin scaffold wizard (src/cli.ts lines 272-382) -/

def pluginMenuChoices : List String := ["Route", "Hook", "Decorator", "Child plugin", "Done"]

/-- The identifier pattern of askPluginName: lowercase letters, digits
and dashes, starting with a letter (the regex from src/cli.ts 376). -/
def pluginNamePattern (s : String) : Bool :=
  match s.data with
  | [] => false
  | c :: rest =>
    ('a' ≤ c && c ≤ 'z') &&
      rest.all (fun ch => ('a' ≤ ch && ch ≤ 'z') || ('0' ≤ ch && ch ≤ '9') || ch = '-')

/-- askPluginName: free-text input with no default, re-prompting until
the trimmed line matches the identifier pattern. -/
def askPluginNameFn : Nat → List String → Option (String × List String)
  | 0, _ => none
  | fuel + 1, inputs =>
    match askInputFn Value.undef inputs with
    | none => none
    | some (name, rest) =>
      if pluginNamePattern name then some (name, rest)
      else askPluginNameFn fuel rest

/-- The child-plugin naming loop: ask a plugin name, re-prompting with
a warning while it equals the plugin name of the parent. -/
def childNameLoopFn : Nat → Option String → List String → Option (String × List String)
  | 0, _, _ => none
  | fuel + 1, pluginName, inputs =>
    match askPluginNameFn (fuel + 1) inputs with
    | none => none
    | some (c, rest) =>
      if pluginName = some c then childNameLoopFn fuel pluginName rest
      else some (c, rest)

/-- The mutable locals of one iteration of the outer loop of the wizard. -/
structure InnerState where
  pluginName : Option String := none
  routeNames : List String := []
  hookNames : List String := []
  hasDecorator : Bool := false
  childPluginName : Option String := none
deriving DecidableEq, Repr

def innerMenuMessage (pluginName : Option String) : String :=
  if truthyOpt pluginName then
    "What would you like to add to \"" ++ pluginName.getD "" ++ "\"?"
  else "What would you like to add?"

/-- On the first non-Done selection, capture a plugin name if none is
held yet (the falsy check on the pluginName local of the source). -/
def ensurePluginName (fuel : Nat) (st : InnerState) (rest : List String) :
    Option (InnerState × List String) :=
  if truthyOpt st.pluginName then some (st, rest)
  else
    match askPluginNameFn fuel rest with
    | none => none
    | some (pn, rest2) => some ({ st with pluginName := some pn }, rest2)

/-- The inner menu loop of the wizard (one scaffold under construction):
repeat until Done; duplicate routes/hooks and repeated decorator or
child selections warn and re-loop without changing the state; a child
name equal to the parent name is re-prompted; an undefined selection
(the fractional-index defect of askChoice) matches no branch and simply
re-loops. -/
def innerLoopFn : Nat → InnerState → List String → Option (InnerState × List String)
  | 0, _, _ => none
  | fuel + 1, st, inputs =>
    match askChoiceFn (fuel + 1) (innerMenuMessage st.pluginName) pluginMenuChoices inputs with
    | none => none
    | some (selected, rest, _) =>
      if selected = some "Done" then some (st, rest)
      else
        match ensurePluginName (fuel + 1) st rest with
        | none => none
        | some (st1, rest1) =>
          if selected = some "Child plugin" then
            if truthyOpt st1.childPluginName then innerLoopFn fuel st1 rest1
            else
              match childNameLoopFn (fuel + 1) st1.pluginName rest1 with
              | none => none
              | some (c, rest2) =>
                innerLoopFn fuel { st1 with childPluginName := some c } rest2
          else if selected = some "Decorator" then
            if st1.hasDecorator then innerLoopFn fuel st1 rest1
            else innerLoopFn fuel { st1 with hasDecorator := true } rest1
          else if selected = some "Route" then
            match askPluginNameFn (fuel + 1) rest1 with
            | none => none
            | some (rn, rest2) =>
              if rn ∈ st1.routeNames then innerLoopFn fuel st1 rest2
              else innerLoopFn fuel { st1 with routeNames := st1.routeNames ++ [rn] } rest2
          else if selected = some "Hook" then
            match askPluginNameFn (fuel + 1) rest1 with
            | none => none
            | some (hn, rest2) =>
              if hn ∈ st1.hookNames then innerLoopFn fuel st1 rest2
              else innerLoopFn fuel { st1 with hookNames := st1.hookNames ++ [hn] } rest2
          else innerLoopFn fuel st1 rest1

/-- One declared plugin scaffold (src/cli.ts 49-56). -/
structure PluginScaffold where
  pluginName : String
  routeNames : List String
  hookNames : List String
  hasDecorator : Bool
  childPluginName : Option String
  additions : List String
deriving DecidableEq, Repr

/-- The outer loop of the wizard: build one scaffold with the inner loop;
if no name was captured (Done chosen immediately) end without pushing
and without asking to continue; otherwise push and ask whether to
scaffold another plugin (only the answer No stops the loop). -/
def runPluginScaffoldWizardFn : Nat → List PluginScaffold → List String →
    Option (List PluginScaffold × List String)
  | 0, _, _ => none
  | fuel + 1, acc, inputs =>
    match innerLoopFn (fuel + 1) {} inputs with
    | none => none
    | some (st, rest) =>
      match st.pluginName with
      | none => some (acc, rest)
      | some pn =>
        if pn = "" then some (acc, rest)
        else
          match askChoiceFn (fuel + 1) "Would you like to scaffold another plugin?"
              ["Yes", "No"] rest with
          | none => none
          | some (ans, rest2, _) =>
            if ans = some "No" then
              some (acc ++ [⟨pn, st.routeNames, st.hookNames, st.hasDecorator,
                st.childPluginName, []⟩], rest2)
            else
              runPluginScaffoldWizardFn fuel
                (acc ++ [⟨pn, st.routeNames, st.hookNames, st.hasDecorator,
                  st.childPluginName, []⟩]) rest2

def runPluginScaffoldWizard (fuel : Nat) (inputs : List String) :
    Option (List PluginScaffold × List String) :=
  runPluginScaffoldWizardFn fuel [] inputs

/-- A scaffold is well-formed: its plugin name, every route name, every
hook name and the child name (when set) match the identifier pattern,
routes and hooks hold no duplicates, and the child name differs from
the own plugin name of the scaffold. -/
def WellFormedScaffold (s : PluginScaffold) : Prop :=
  pluginNamePattern s.pluginName = true ∧
  (∀ r ∈ s.routeNames, pluginNamePattern r = true) ∧ s.routeNames.Nodup ∧
  (∀ h ∈ s.hookNames, pluginNamePattern h = true) ∧ s.hookNames.Nodup ∧
  (∀ c ∈ s.childPluginName.toList, pluginNamePattern c = true ∧ c ≠ s.pluginName)

instance (s : PluginScaffold) : Decidable (WellFormedScaffold s) := by
  unfold WellFormedScaffold; infer_instance

theorem pluginNamePattern_ne_empty {s : String} (h : pluginNamePattern s = true) :
    s ≠ "" := by
  intro he
  subst he
  exact absurd h (by decide)

/-- askPluginName only ever returns a name matching the pattern. -/
theorem askPluginNameFn_ok :
    ∀ (fuel : Nat) (inputs : List String) (name : String) (rest : List String),
      askPluginNameFn fuel inputs = some (name, rest) → pluginNamePattern name = true := by
  intro fuel
  induction fuel with
  | zero => intro inputs name rest h; simp [askPluginNameFn] at h
  | succ n ih =>
    intro inputs name rest h
    rw [askPluginNameFn] at h
    rcases hin : askInputFn Value.undef inputs with _ | ⟨name0, rest0⟩
    · rw [hin] at h; simp at h
    · rw [hin] at h
      dsimp only at h
      cases hp : pluginNamePattern name0 with
      | true =>
        simp only [hp, if_true, Option.some.injEq, Prod.mk.injEq] at h
        rw [← h.1]
        exact hp
      | false =>
        simp only [hp, Bool.false_eq_true, if_false] at h
        exact ih rest0 name rest h

/-- The child-name loop returns a pattern-valid name different from the
plugin name of the parent. -/
theorem childNameLoopFn_ok :
    ∀ (fuel : Nat) (pn : Option String) (inputs : List String) (c : String)
      (rest : List String),
      childNameLoopFn fuel pn inputs = some (c, rest) →
      pluginNamePattern c = true ∧ pn ≠ some c := by
  intro fuel
  induction fuel with
  | zero => intro pn inputs c rest h; simp [childNameLoopFn] at h
  | succ n ih =>
    intro pn inputs c rest h
    rw [childNameLoopFn] at h
    rcases hask : askPluginNameFn (n + 1) inputs with _ | ⟨c0, rest0⟩
    · rw [hask] at h; simp at h
    · rw [hask] at h
      dsimp only at h
      by_cases he : pn = some c0
      · rw [if_pos he] at h
        exact ih pn rest0 c rest h
      · rw [if_neg he] at h
        simp only [Option.some.injEq, Prod.mk.injEq] at h
        obtain ⟨h1, _⟩ := h
        subst h1
        exact ⟨askPluginNameFn_ok (n + 1) inputs c0 rest0 hask, he⟩

/-- The inner-loop state invariant: every captured name matches the
pattern, routes and hooks are duplicate-free, and a captured child name
presupposes a plugin name it differs from. -/
def InnerInv (st : InnerState) : Prop :=
  (∀ pn ∈ st.pluginName.toList, pluginNamePattern pn = true) ∧
  (∀ r ∈ st.routeNames, pluginNamePattern r = true) ∧ st.routeNames.Nodup ∧
  (∀ h ∈ st.hookNames, pluginNamePattern h = true) ∧ st.hookNames.Nodup ∧
  (∀ c ∈ st.childPluginName.toList,
    pluginNamePattern c = true ∧ st.pluginName ≠ none ∧ st.pluginName ≠ some c)

theorem ensurePluginName_spec (fuel : Nat) (st : InnerState) (rest : List String)
    (st1 : InnerState) (rest1 : List String)
    (h : ensurePluginName fuel st rest = some (st1, rest1)) (hinv : InnerInv st) :
    InnerInv st1 ∧ truthyOpt st1.pluginName = true ∧
    st1.routeNames = st.routeNames ∧ st1.hookNames = st.hookNames ∧
    st1.hasDecorator = st.hasDecorator ∧ st1.childPluginName = st.childPluginName := by
  unfold ensurePluginName at h
  cases ht : truthyOpt st.pluginName with
  | true =>
    simp only [ht, if_true, Option.some.injEq, Prod.mk.injEq] at h
    obtain ⟨h1, _⟩ := h
    subst h1
    exact ⟨hinv, ht, rfl, rfl, rfl, rfl⟩
  | false =>
    simp only [ht, Bool.false_eq_true, if_false] at h
    rcases hask : askPluginNameFn fuel rest with _ | ⟨pn, rest2⟩
    · rw [hask] at h; simp at h
    · rw [hask] at h
      dsimp only at h
      simp only [Option.some.injEq, Prod.mk.injEq] at h
      obtain ⟨h1, _⟩ := h
      subst h1
      have hpn := askPluginNameFn_ok fuel rest pn rest2 hask
      have hnone : st.pluginName = none := by
        rcases ho : st.pluginName with _ | s
        · rfl
        · rw [ho] at ht
          simp only [truthyOpt, decide_eq_false_iff_not, Decidable.not_not] at ht
          subst ht
          have := hinv.1 "" (by simp [ho])
          exact absurd this (by decide)
      have hchild : st.childPluginName = none := by
        rcases hc : st.childPluginName with _ | c
        · rfl
        · exact absurd hnone (hinv.2.2.2.2.2 c (by simp [hc])).2.1
      refine ⟨⟨?_, hinv.2.1, hinv.2.2.1, hinv.2.2.2.1, hinv.2.2.2.2.1, ?_⟩, ?_, rfl, rfl, rfl, rfl⟩
      · intro x hx
        simp only [Option.toList_some, List.mem_singleton] at hx
        subst hx
        exact hpn
      · intro c hc
        simp only [hchild] at hc
        simp at hc
      · simpa [truthyOpt] using pluginNamePattern_ne_empty hpn

theorem truthyOpt_ne_none {o : Option String} (h : truthyOpt o = true) : o ≠ none := by
  rcases o with _ | s
  · exact absurd h (by decide)
  · simp

/-- The inner menu loop preserves the state invariant. -/
theorem innerLoopFn_inv :
    ∀ (fuel : Nat) (st : InnerState) (inputs : List String) (st' : InnerState)
      (rest : List String),
      innerLoopFn fuel st inputs = some (st', rest) → InnerInv st → InnerInv st' := by
  intro fuel
  induction fuel with
  | zero => intro st inputs st' rest h _; simp [innerLoopFn] at h
  | succ n ih =>
    intro st inputs st' rest h hinv
    rw [innerLoopFn] at h
    rcases hask : askChoiceFn (n + 1) (innerMenuMessage st.pluginName) pluginMenuChoices
        inputs with _ | ⟨selected, rest0, evs0⟩
    · rw [hask] at h; simp at h
    · rw [hask] at h
      dsimp only at h
      by_cases hdone : selected = some "Done"
      · rw [if_pos hdone] at h
        simp only [Option.some.injEq, Prod.mk.injEq] at h
        rw [← h.1]
        exact hinv
      · rw [if_neg hdone] at h
        rcases hens : ensurePluginName (n + 1) st rest0 with _ | ⟨st1, rest1⟩
        · rw [hens] at h; simp at h
        · rw [hens] at h
          dsimp only at h
          obtain ⟨hinv1, htr1, _, _, _, _⟩ :=
            ensurePluginName_spec (n + 1) st rest0 st1 rest1 hens hinv
          by_cases hchild : selected = some "Child plugin"
          · rw [if_pos hchild] at h
            cases hct : truthyOpt st1.childPluginName with
            | true =>
              simp only [hct, if_true] at h
              exact ih st1 rest1 st' rest h hinv1
            | false =>
              simp only [hct, Bool.false_eq_true, if_false] at h
              rcases hcl : childNameLoopFn (n + 1) st1.pluginName rest1 with _ | ⟨c, rest2⟩
              · rw [hcl] at h; simp at h
              · rw [hcl] at h
                dsimp only at h
                obtain ⟨hcp, hcne⟩ := childNameLoopFn_ok (n + 1) st1.pluginName rest1 c rest2 hcl
                refine ih _ _ _ _ h
                  ⟨hinv1.1, hinv1.2.1, hinv1.2.2.1, hinv1.2.2.2.1, hinv1.2.2.2.2.1, ?_⟩
                intro c' hc'
                simp only [Option.toList_some, List.mem_singleton] at hc'
                subst hc'
                exact ⟨hcp, truthyOpt_ne_none htr1, hcne⟩
          · rw [if_neg hchild] at h
            by_cases hdec : selected = some "Decorator"
            · rw [if_pos hdec] at h
              cases hhd : st1.hasDecorator with
              | true =>
                simp only [hhd, if_true] at h
                exact ih st1 rest1 st' rest h hinv1
              | false =>
                simp only [hhd, Bool.false_eq_true, if_false] at h
                exact ih _ _ _ _ h
                  ⟨hinv1.1, hinv1.2.1, hinv1.2.2.1, hinv1.2.2.2.1, hinv1.2.2.2.2.1,
                    hinv1.2.2.2.2.2⟩
            · rw [if_neg hdec] at h
              by_cases hroute : selected = some "Route"
              · rw [if_pos hroute] at h
                rcases hr : askPluginNameFn (n + 1) rest1 with _ | ⟨rn, rest2⟩
                · rw [hr] at h; simp at h
                · rw [hr] at h
                  dsimp only at h
                  have hrp := askPluginNameFn_ok (n + 1) rest1 rn rest2 hr
                  by_cases hmem : rn ∈ st1.routeNames
                  · rw [if_pos hmem] at h
                    exact ih st1 rest2 st' rest h hinv1
                  · rw [if_neg hmem] at h
                    refine ih _ _ _ _ h
                      ⟨hinv1.1, ?_, ?_, hinv1.2.2.2.1, hinv1.2.2.2.2.1, hinv1.2.2.2.2.2⟩
                    · intro r hrm
                      rcases List.mem_append.mp hrm with hrm | hrm
                      · exact hinv1.2.1 r hrm
                      · rw [List.mem_singleton.mp hrm]
                        exact hrp
                    · rw [List.nodup_append]
                      exact ⟨hinv1.2.2.1, List.nodup_singleton rn,
                        by simpa [List.disjoint_singleton] using hmem⟩
              · rw [if_neg hroute] at h
                by_cases hhook : selected = some "Hook"
                · rw [if_pos hhook] at h
                  rcases hr : askPluginNameFn (n + 1) rest1 with _ | ⟨hn, rest2⟩
                  · rw [hr] at h; simp at h
                  · rw [hr] at h
                    dsimp only at h
                    have hrp := askPluginNameFn_ok (n + 1) rest1 hn rest2 hr
                    by_cases hmem : hn ∈ st1.hookNames
                    · rw [if_pos hmem] at h
                      exact ih st1 rest2 st' rest h hinv1
                    · rw [if_neg hmem] at h
                      refine ih _ _ _ _ h
                        ⟨hinv1.1, hinv1.2.1, hinv1.2.2.1, ?_, ?_, hinv1.2.2.2.2.2⟩
                      · intro r hrm
                        rcases List.mem_append.mp hrm with hrm | hrm
                        · exact hinv1.2.2.2.1 r hrm
                        · rw [List.mem_singleton.mp hrm]
                          exact hrp
                      · rw [List.nodup_append]
                        exact ⟨hinv1.2.2.2.2.1, List.nodup_singleton hn,
                          by simpa [List.disjoint_singleton] using hmem⟩
                · rw [if_neg hhook] at h
                  exact ih st1 rest1 st' rest h hinv1

/-- The outer wizard loop only ever appends well-formed scaffolds. -/
theorem runPluginScaffoldWizardFn_wf :
    ∀ (fuel : Nat) (acc : List PluginScaffold) (inputs : List String)
      (out : List PluginScaffold) (rest : List String),
      runPluginScaffoldWizardFn fuel acc inputs = some (out, rest) →
      (∀ s ∈ acc, WellFormedScaffold s) →
      ∀ s ∈ out, WellFormedScaffold s := by
  intro fuel
  induction fuel with
  | zero => intro acc inputs out rest h _; simp [runPluginScaffoldWizardFn] at h
  | succ n ih =>
    intro acc inputs out rest h hacc
    rw [runPluginScaffoldWizardFn] at h
    rcases hinner : innerLoopFn (n + 1) {} inputs with _ | ⟨st, rest0⟩
    · rw [hinner] at h; simp at h
    · rw [hinner] at h
      dsimp only at h
      have hstinv : InnerInv st :=
        innerLoopFn_inv (n + 1) {} inputs st rest0 hinner
          ⟨by simp, by simp, List.nodup_nil, by simp, List.nodup_nil, by simp⟩
      rcases hpn : st.pluginName with _ | pn
      · rw [hpn] at h
        dsimp only at h
        simp only [Option.some.injEq, Prod.mk.injEq] at h
        rw [← h.1]
        exact hacc
      · rw [hpn] at h
        dsimp only at h
        by_cases hemp : pn = ""
        · rw [if_pos hemp] at h
          simp only [Option.some.injEq, Prod.mk.injEq] at h
          rw [← h.1]
          exact hacc
        · rw [if_neg hemp] at h
          have hwf : WellFormedScaffold
              ⟨pn, st.routeNames, st.hookNames, st.hasDecorator, st.childPluginName, []⟩ := by
            refine ⟨hstinv.1 pn (by simp [hpn]), hstinv.2.1, hstinv.2.2.1,
              hstinv.2.2.2.1, hstinv.2.2.2.2.1, ?_⟩
            intro c hc
            obtain ⟨hcp, _, hcne⟩ := hstinv.2.2.2.2.2 c hc
            refine ⟨hcp, fun hce => hcne ?_⟩
            rw [hpn, hce]
          have hacc2 : ∀ s ∈ acc ++
              [(⟨pn, st.routeNames, st.hookNames, st.hasDecorator, st.childPluginName,
                []⟩ : PluginScaffold)], WellFormedScaffold s := by
            intro s hs
            rcases List.mem_append.mp hs with hs | hs
            · exact hacc s hs
            · rw [List.mem_singleton.mp hs]
              exact hwf
          rcases hask2 : askChoiceFn (n + 1) "Would you like to scaffold another plugin?"
              ["Yes", "No"] rest0 with _ | ⟨ans, rest2, evs2⟩
          · rw [hask2] at h; simp at h
          · rw [hask2] at h
            dsimp only at h
            by_cases hno : ans = some "No"
            · rw [if_pos hno] at h
              simp only [Option.some.injEq, Prod.mk.injEq] at h
              rw [← h.1]
              exact hacc2
            · rw [if_neg hno] at h
              exact ih _ _ _ _ h hacc2

/-- Claim C7: every scaffold in the sequence returned by the wizard,
for every fuel bound and every sequence of operator inputs, is
well-formed: all names match the identifier pattern, route and hook
names are duplicate-free within the scaffold, and a child plugin name,
when set, differs from the own plugin name of the scaffold. -/
theorem wizard_scaffolds_wellFormed (fuel : Nat) (inputs : List String)
    (out : List PluginScaffold) (rest : List String)
    (h : runPluginScaffoldWizard fuel inputs = some (out, rest)) :
    ∀ s ∈ out, WellFormedScaffold s :=
  runPluginScaffoldWizardFn_wf fuel [] inputs out rest h (by simp)

def wizardWitnessInputs : List String := ["1", "billing", "users", "5", "2"]

def billingUsersScaffold : PluginScaffold := ⟨"billing", ["users"], [], false, none, []⟩

/-- Witness for C7: a concrete completed wizard run (one scaffold named
billing with one route users) whose scaffold is well-formed. -/
theorem wizard_scaffolds_wellFormed_witness :
    runPluginScaffoldWizard 16 wizardWitnessInputs = some ([billingUsersScaffold], []) ∧
    WellFormedScaffold billingUsersScaffold := by
  refine ⟨by decide, ?_⟩
  exact wizard_scaffolds_wellFormed 16 wizardWitnessInputs [billingUsersScaffold] []
    (by decide) billingUsersScaffold (by simp)

/-! ## Manifest builder and writer (src/cli.ts lines 175-184, 492-960)

File contents are pure functions of the resolved options and scaffolds
and are elided: every claim about the manifest is about relative paths
only.  Paths other than the target directory itself are relative to the
target. -/

/-- The fixed base manifest (src/cli.ts 787-801). -/
def basePaths : List String := [
  "package.json",
  "tsconfig.json",
  "app.ts",
  "plugins/sensible.ts",
  "plugins/support.ts",
  "routes/root.ts",
  "routes/root/index.ts",
  "test/helper.ts",
  "test/plugins/support.test.ts",
  "test/routes/root.test.ts",
  ".gitignore",
  ".env",
  "README.md"]

/-- The JS expression (o || d) on a string | undefined value. -/
def jsOrDefault (o : Option String) (d : String) : String :=
  if truthyOpt o then o.getD "" else d

/-- The relative paths of buildPluginFiles (src/cli.ts 842-949), in push
order: index, one per route, one per hook, the decorator if flagged,
the child plugin if truthy. -/
def buildPluginFilePaths (p : PluginScaffold) : List String :=
  let pluginRoot := "plugins/" ++ p.pluginName
  let childName := jsOrDefault p.childPluginName "child"
  [pluginRoot ++ "/index.ts"] ++
    p.routeNames.map (fun rn => pluginRoot ++ "/routes/" ++ rn ++ "/index.ts") ++
    p.hookNames.map (fun hn => pluginRoot ++ "/hooks/" ++ hn ++ ".ts") ++
    (if p.hasDecorator then [pluginRoot ++ "/decorator.ts"] else []) ++
    (if truthyOpt p.childPluginName then
      [pluginRoot ++ "/plugins/" ++ childName ++ ".ts"] else [])

/-- buildCustomPluginFiles: concatenation over the scaffold list (the
empty-list guard of the source returns the same empty concatenation). -/
def buildCustomPluginFilePaths (ps : List PluginScaffold) : List String :=
  ps.flatMap buildPluginFilePaths

/-- The full relative-path manifest checked before any write. -/
def manifestPaths (ps : List PluginScaffold) : List String :=
  basePaths ++ buildCustomPluginFilePaths ps

def dupMsg (p : String) : String := "Duplicate generated file detected: " ++ p

/-- ensureNoDuplicateFilePaths (src/cli.ts 951-960): walk the paths with
a seen-set, failing at the first path already seen. -/
def ensureNoDuplicateFilePaths (seen : List String) : List String → Except String Unit
  | [] => Except.ok ()
  | p :: rest =>
    if p ∈ seen then Except.error (dupMsg p)
    else ensureNoDuplicateFilePaths (p :: seen) rest

/-- The first path with an earlier occurrence (the path that the
fatal message names). -/
def firstDuplicate (seen : List String) : List String → Option String
  | [] => none
  | p :: rest => if p ∈ seen then some p else firstDuplicate (p :: seen) rest

/-- path.dirname of node on a relative path containing a slash. -/
def dirname (p : String) : String :=
  match p.data.reverse.dropWhile (fun c => c ≠ '/') with
  | [] => "."
  | _ :: restRev => String.mk restRev.reverse

inductive FsOp where
  | mkdir (path : String) : FsOp
  | write (path : String) : FsOp
  | fatal (message : String) : FsOp
deriving DecidableEq, Repr

/-- The file-system effects of generateProject (src/cli.ts 492-827) in
program order: create the target directory and the fixed subdirectory
skeleton, then check the manifest for duplicates — fatal before any
file write on a collision — then write the base files and, per custom
plugin file, create its directory and write it. -/
def generateProjectOps (targetDir : String) (resolvedOptions : ResolvedOptions)
    (pluginScaffolds : List PluginScaffold) : List FsOp :=
  let customPaths := buildCustomPluginFilePaths pluginScaffolds
  [FsOp.mkdir targetDir, FsOp.mkdir "plugins", FsOp.mkdir "routes",
    FsOp.mkdir "routes/root", FsOp.mkdir "test", FsOp.mkdir "test/plugins",
    FsOp.mkdir "test/routes"] ++
    (match ensureNoDuplicateFilePaths [] (basePaths ++ customPaths) with
     | Except.error e => [FsOp.fatal e]
     | Except.ok _ =>
       basePaths.map FsOp.write ++
         customPaths.flatMap (fun p => [FsOp.mkdir (dirname p), FsOp.write p]))

/-- validateNewProjectTarget (src/cli.ts 175-184): reject the current
directory and any target that already exists on disk. -/
def validateNewProjectTarget (targetDir : String) (targetExists : Bool) :
    Except String Unit :=
  if targetDir = "." then
    Except.error "Current directory generation is disabled in MVP. Use a new directory name."
  else if targetExists then
    Except.error "Target directory already exists. Please choose a new directory."
  else Except.ok ()

/-- The generation pipeline of main as far as the file system is concerned:
validation runs before any prompt and any effect; only if it passes do
the generation effects happen. -/
def runGenerationPipeline (targetDir : String) (targetExists : Bool)
    (resolvedOptions : ResolvedOptions) (pluginScaffolds : List PluginScaffold) :
    List FsOp × Except String Unit :=
  match validateNewProjectTarget targetDir targetExists with
  | Except.error e => ([], Except.error e)
  | Except.ok _ =>
    (generateProjectOps targetDir resolvedOptions pluginScaffolds, Except.ok ())

/-! ## Claim C5: the manifest path set -/

/-- Spec 4.6 step 1, stated from the words of the specification: per
scaffold, an index file, one file per route name, one per hook name, a
decorator file if flagged, and a child-plugin file if the child name is
set (a set name in this CLI being a truthy, non-empty string), all
rooted at plugins/(pluginName)/. -/
def specScaffoldPaths (p : PluginScaffold) : List String :=
  ["plugins/" ++ p.pluginName ++ "/index.ts"] ++
    p.routeNames.map (fun r => "plugins/" ++ p.pluginName ++ "/routes/" ++ r ++ "/index.ts") ++
    p.hookNames.map (fun h => "plugins/" ++ p.pluginName ++ "/hooks/" ++ h ++ ".ts") ++
    (if p.hasDecorator then ["plugins/" ++ p.pluginName ++ "/decorator.ts"] else []) ++
    (match p.childPluginName with
     | some c =>
       if c = "" then [] else ["plugins/" ++ p.pluginName ++ "/plugins/" ++ c ++ ".ts"]
     | none => [])

theorem buildPluginFilePaths_eq_spec (p : PluginScaffold) :
    buildPluginFilePaths p = specScaffoldPaths p := by
  unfold buildPluginFilePaths specScaffoldPaths jsOrDefault
  rcases hc : p.childPluginName with _ | c
  · simp [truthyOpt]
  · by_cases he : c = ""
    · subst he; simp [truthyOpt]
    · simp [truthyOpt, he]

/-- Claim C5: for every ResolvedOptions and every scaffold list, the
manifest equals the fixed 13-element base set unioned with the
spec-described per-scaffold sets; zero scaffolds yield exactly the 13
base paths and the billing example yields exactly its four plugin
paths. -/
theorem manifest_paths_correct (resolvedOptions : ResolvedOptions)
    (scaffolds : List PluginScaffold) :
    manifestPaths scaffolds = basePaths ++ scaffolds.flatMap specScaffoldPaths ∧
    manifestPaths [] = basePaths ∧
    basePaths.length = 13 ∧
    manifestPaths [⟨"billing", ["invoices"], ["audit"], true, none, []⟩] =
      basePaths ++ ["plugins/billing/index.ts",
        "plugins/billing/routes/invoices/index.ts",
        "plugins/billing/hooks/audit.ts",
        "plugins/billing/decorator.ts"] := by
  refine ⟨?_, by decide, by decide, by decide⟩
  unfold manifestPaths buildCustomPluginFilePaths
  rw [funext buildPluginFilePaths_eq_spec]

/-! ## Claim C6: duplicate detection -/

theorem ensureNoDuplicateFilePaths_eq_firstDuplicate :
    ∀ (l seen : List String),
      ensureNoDuplicateFilePaths seen l =
        (match firstDuplicate seen l with
         | some p => Except.error (dupMsg p)
         | none => Except.ok ()) := by
  intro l
  induction l with
  | nil => intro seen; rfl
  | cons p rest ih =>
    intro seen
    rw [ensureNoDuplicateFilePaths, firstDuplicate]
    by_cases hp : p ∈ seen
    · rw [if_pos hp, if_pos hp]
    · rw [if_neg hp, if_neg hp, ih]

theorem firstDuplicate_none_iff :
    ∀ (l seen : List String),
      firstDuplicate seen l = none ↔ l.Nodup ∧ ∀ p ∈ l, p ∉ seen := by
  intro l
  induction l with
  | nil => intro seen; simp [firstDuplicate]
  | cons p rest ih =>
    intro seen
    rw [firstDuplicate]
    by_cases hp : p ∈ seen
    · rw [if_pos hp]
      simp only [List.nodup_cons, List.mem_cons]
      constructor
      · intro h; exact absurd h (by simp)
      · rintro ⟨_, hall⟩
        exact absurd hp (hall p (Or.inl rfl))
    · rw [if_neg hp, ih]
      constructor
      · rintro ⟨hnd, hall⟩
        refine ⟨List.nodup_cons.mpr ⟨fun hmem => ?_, hnd⟩, ?_⟩
        · exact (hall p hmem) (by simp)
        · intro q hq
          rcases List.mem_cons.mp hq with rfl | hq
          · exact hp
          · intro hqs
            exact (hall q hq) (List.mem_cons_of_mem _ hqs)
      · rintro ⟨hnd, hall⟩
        obtain ⟨hph, hnd⟩ := List.nodup_cons.mp hnd
        refine ⟨hnd, ?_⟩
        intro q hq hqps
        rcases List.mem_cons.mp hqps with rfl | hqs
        · exact hph hq
        · exact (hall q (List.mem_cons_of_mem _ hq)) hqs

def duplicateNameInputs : List String := ["3", "billing", "5", "1", "3", "billing", "5", "2"]

def duplicateScaffolds : List PluginScaffold :=
  [⟨"billing", [], [], true, none, []⟩, ⟨"billing", [], [], true, none, []⟩]

theorem generateProjectOps_eq (targetDir : String) (ropts : ResolvedOptions)
    (ps : List PluginScaffold) :
    generateProjectOps targetDir ropts ps =
      [FsOp.mkdir targetDir, FsOp.mkdir "plugins", FsOp.mkdir "routes",
        FsOp.mkdir "routes/root", FsOp.mkdir "test", FsOp.mkdir "test/plugins",
        FsOp.mkdir "test/routes"] ++
      (match firstDuplicate [] (manifestPaths ps) with
       | some p => [FsOp.fatal (dupMsg p)]
       | none =>
         basePaths.map FsOp.write ++
           (buildCustomPluginFilePaths ps).flatMap
             (fun p => [FsOp.mkdir (dirname p), FsOp.write p])) := by
  unfold generateProjectOps manifestPaths
  dsimp only
  rw [ensureNoDuplicateFilePaths_eq_firstDuplicate]
  rcases h : firstDuplicate [] (basePaths ++ buildCustomPluginFilePaths ps) with _ | p <;>
    rfl

/-- Claim C6: generateProject fails fatally if and only if the combined
manifest contains a duplicate relative path; in that case it names the
first offending path and writes no file; and the wizard permits two
scaffolds with the same pluginName, an input on which generation does
reach the fatal branch at the repeated plugins/billing/index.ts. -/
theorem duplicate_manifest_fatal (targetDir : String)
    (resolvedOptions : ResolvedOptions) (scaffolds : List PluginScaffold) :
    ((∃ m, FsOp.fatal m ∈ generateProjectOps targetDir resolvedOptions scaffolds) ↔
      ¬ (manifestPaths scaffolds).Nodup) ∧
    (∀ m, FsOp.fatal m ∈ generateProjectOps targetDir resolvedOptions scaffolds →
      (∀ q, FsOp.write q ∉ generateProjectOps targetDir resolvedOptions scaffolds) ∧
      ∃ p, firstDuplicate [] (manifestPaths scaffolds) = some p ∧ m = dupMsg p) ∧
    (runPluginScaffoldWizard 32 duplicateNameInputs = some (duplicateScaffolds, []) ∧
      duplicateScaffolds.map PluginScaffold.pluginName = ["billing", "billing"] ∧
      FsOp.fatal (dupMsg "plugins/billing/index.ts") ∈
        generateProjectOps targetDir resolvedOptions duplicateScaffolds) := by
  refine ⟨?_, ?_, by decide, by decide, ?_⟩
  · rcases hfd : firstDuplicate [] (manifestPaths scaffolds) with _ | p
    · constructor
      · rintro ⟨m, hm⟩
        simp only [generateProjectOps_eq, hfd] at hm
        simp at hm
      · intro hnd
        exact absurd ((firstDuplicate_none_iff _ _).mp hfd).1 hnd
    · constructor
      · intro _ hnd
        have hn : firstDuplicate [] (manifestPaths scaffolds) = none :=
          (firstDuplicate_none_iff _ _).mpr ⟨hnd, by simp⟩
        rw [hfd] at hn
        exact Option.noConfusion hn
      · intro _
        refine ⟨dupMsg p, ?_⟩
        simp only [generateProjectOps_eq, hfd]
        simp
  · intro m hm
    rcases hfd : firstDuplicate [] (manifestPaths scaffolds) with _ | p
    · simp only [generateProjectOps_eq, hfd] at hm
      simp at hm
    · simp only [generateProjectOps_eq, hfd] at hm
      refine ⟨?_, p, rfl, ?_⟩
      · intro q
        simp only [generateProjectOps_eq, hfd]
        simp
      · simp at hm
        exact hm
  · have hdup : firstDuplicate [] (manifestPaths duplicateScaffolds) =
        some "plugins/billing/index.ts" := by decide
    simp only [generateProjectOps_eq, hdup]
    simp

/-- Witness for C6: the concrete duplicate-name scaffolds make the run
fatal, prove the manifest non-duplicate-free, and exclude every write. -/
theorem duplicate_manifest_fatal_witness :
    FsOp.fatal (dupMsg "plugins/billing/index.ts") ∈
      generateProjectOps "demo" [] duplicateScaffolds ∧
    ¬ (manifestPaths duplicateScaffolds).Nodup ∧
    ∀ q, FsOp.write q ∉ generateProjectOps "demo" [] duplicateScaffolds := by
  have h := duplicate_manifest_fatal "demo" [] duplicateScaffolds
  have hmem := h.2.2.2.2
  exact ⟨hmem, h.1.mp ⟨_, hmem⟩, (h.2.1 _ hmem).1⟩

/-! ## Claim C8: pre-existing target directory -/

/-- Claim C8: if the target directory already exists on disk, or is the
current directory, the pipeline fails fatally during validation, before
creating or modifying any file or directory — the effect list is empty,
so the contents of the pre-existing directory are untouched. -/
theorem targetExists_fails_before_any_write (targetDir : String) (targetExists : Bool)
    (resolvedOptions : ResolvedOptions) (pluginScaffolds : List PluginScaffold)
    (h : targetExists = true ∨ targetDir = ".") :
    ∃ e, runGenerationPipeline targetDir targetExists resolvedOptions pluginScaffolds =
      ([], Except.error e) := by
  unfold runGenerationPipeline validateNewProjectTarget
  rcases h with h | h
  · subst h
    by_cases hd : targetDir = "."
    · exact ⟨_, by rw [if_pos hd]⟩
    · exact ⟨_, by rw [if_neg hd, if_pos rfl]⟩
  · subst h
    exact ⟨_, by rw [if_pos rfl]⟩

/-- Witness for C8 at the concrete existing directory "demo". -/
theorem targetExists_fails_witness :
    ∃ e, runGenerationPipeline "demo" true [] [] = ([], Except.error e) :=
  targetExists_fails_before_any_write "demo" true [] [] (Or.inl rfl)

end FastifyNew
